import Mathlib

/-!
Shallow embedding of `src/http_server.py` (a Flask app with a single route
`/squareme`).  The handler `get` reads the query parameter `num`, parses it
with Python's `int(val, 10)`, sleeps for `50 + random.randint(50, 200)`
milliseconds, then with probability 1/11 (`random.randint(0, 10) == 0`)
returns `{"error": "something went wrong"}` and otherwise returns
`{"msg": val*val, "ttl(ms)": TTL + delay}` with `TTL = 100`.  A failed parse
raises, is caught by the surrounding `try`, printed, and the view returns
no body.

The randomness is embedded by passing the two draws (`rDelay` for
`random.randint(50, 200)` and `rErr` for `random.randint(0, 10)`) as
arguments; the wall-clock sleep is recorded as an event in an event trace so
that ordering claims can be stated.
-/

namespace HttpServer

/-- ASCII whitespace characters that Python's `int()` strips from both ends
of its string argument before parsing. -/
def isPyWs (c : Char) : Bool :=
  c = ' ' || c = '\t' || c = '\n' || c = '\r' || c = '\x0b' || c = '\x0c'

/-- Strip leading and trailing Python whitespace from a character list. -/
def stripWs (l : List Char) : List Char :=
  ((l.dropWhile isPyWs).reverse.dropWhile isPyWs).reverse

/-- Value of a list of decimal digit characters, most significant first. -/
def digitsVal (l : List Char) : Int :=
  l.foldl (fun a c => a * 10 + ((c.toNat : Int) - 48)) 0

/-- Python's `digitpart` grammar for base-10 integer literals:
`digit (["_"] digit)*` — nonempty, starts and ends with a digit, single
underscores allowed only between digits. -/
def digitsUnd : List Char → Bool
  | [] => false
  | [c] => c.isDigit
  | c :: d :: rest =>
    c.isDigit && (if d = '_' then digitsUnd rest else digitsUnd (d :: rest))

/-- Core of Python's `int(s, 10)` on a character list: strip whitespace,
allow one optional sign, then require a `digitpart`; the value ignores
underscores. -/
def pyIntCore (l : List Char) : Option Int :=
  match stripWs l with
  | [] => none
  | c :: rest =>
    if c = '+' then
      (if digitsUnd rest then some (digitsVal (rest.filter (fun x => x ≠ '_')))
       else none)
    else if c = '-' then
      (if digitsUnd rest then some (-(digitsVal (rest.filter (fun x => x ≠ '_'))))
       else none)
    else
      (if digitsUnd (c :: rest) then
        some (digitsVal ((c :: rest).filter (fun x => x ≠ '_')))
       else none)

/-- Python's `int(s, 10)` on a string: `some v` on success, `none` when a
`ValueError` would be raised. -/
def pyIntParse (s : String) : Option Int :=
  pyIntCore s.data

/-- The parse step of the handler, `val = int(request.args.get('num'), 10)`:
a missing parameter gives `None` and `int(None, 10)` raises `TypeError`;
a non-integer string raises `ValueError`.  Both exceptions carry a message
that the `except` block will print. -/
def pyIntOfArg (numArg : Option String) : Except String Int :=
  match numArg with
  | none => Except.error "TypeError: int() argument must be a string, a bytes-like object or a real number, not NoneType"
  | some s =>
    match pyIntParse s with
    | some v => Except.ok v
    | none => Except.error ("ValueError: invalid literal for int() with base 10: " ++ s)

/-- Module-level constant `TTL = 100` (time to live in ms). -/
def TTL : Int := 100

/-- A JSON body produced by `jsonify`: either the success object
`{"msg": msg, "ttl(ms)": ttl}` or the error object `{"error": s}`. -/
inductive Body where
  | success (msg : Int) (ttl : Int) : Body
  | error (s : String) : Body
  deriving DecidableEq

/-- An HTTP response: status code plus JSON body. -/
structure HttpResponse where
  status : Nat
  body : Body
  deriving DecidableEq

/-- Flask's `jsonify` wraps a JSON body in a 200-status response. -/
def jsonify (b : Body) : HttpResponse :=
  { status := 200, body := b }

/-- Observable events of one handler invocation, in execution order. -/
inductive Event where
  | parsed (v : Int) : Event
  | drewDelay (r : Int) : Event
  | slept (ms : Int) : Event
  | drewError (r : Int) : Event
  deriving DecidableEq

/-- The outcome of one run of the view function: the returned response
(`none` when the `except` branch falls off the end of the function),
what was printed, and the ordered event trace. -/
structure HandlerRun where
  response : Option HttpResponse
  log : List String
  events : List Event
  deriving DecidableEq

/-- The view function `get` of `src/http_server.py`, as a function of the
`num` query argument and the two random draws `rDelay = random.randint(50, 200)`
and `rErr = random.randint(0, 10)`.  It parses, computes
`delay = 50 + rDelay`, sleeps `delay` ms, then branches on `rErr == 0`;
a parse exception is caught, printed and swallowed. -/
def get (numArg : Option String) (rDelay rErr : Int) : HandlerRun :=
  match pyIntOfArg numArg with
  | Except.error e =>
    { response := none, log := [e], events := [] }
  | Except.ok v =>
    let delay := 50 + rDelay
    { response := some (jsonify
        (if rErr = 0 then Body.error "something went wrong"
         else Body.success (v * v) (TTL + delay)))
      log := []
      events := [Event.parsed v, Event.drewDelay rDelay, Event.slept delay,
                 Event.drewError rErr] }

/-- Modelled from the spec (section 4.1 / claim C7): the grammar "a base-10
signed integer: an optional sign followed by decimal digits", together with
the integer value of a string matching it.  This definition follows the
spec's words, for comparison with `pyIntParse`, which follows the source. -/
def signedDigitsVal (s : String) : Option Int :=
  match s.data with
  | [] => none
  | c :: rest =>
    if c = '+' then
      (if !rest.isEmpty && rest.all Char.isDigit then some (digitsVal rest)
       else none)
    else if c = '-' then
      (if !rest.isEmpty && rest.all Char.isDigit then some (-(digitsVal rest))
       else none)
    else
      (if (c :: rest).all Char.isDigit then some (digitsVal (c :: rest))
       else none)

lemma ws_false_of_digit {c : Char} (h : c.isDigit = true) : isPyWs c = false := by
  cases hw : isPyWs c with
  | false => rfl
  | true =>
    exfalso
    simp only [isPyWs, Bool.or_eq_true, decide_eq_true_eq] at hw
    rcases hw with ((((h1 | h1) | h1) | h1) | h1) | h1 <;> rw [h1] at h <;>
      exact absurd h (by decide)

lemma dropWhile_ws_no_ws {l : List Char} (h : ∀ c ∈ l, isPyWs c = false) :
    l.dropWhile isPyWs = l := by
  cases l with
  | nil => rfl
  | cons c rest => simp [List.dropWhile_cons, h c (by simp)]

lemma stripWs_no_ws {l : List Char} (h : ∀ c ∈ l, isPyWs c = false) :
    stripWs l = l := by
  unfold stripWs
  rw [dropWhile_ws_no_ws h,
    dropWhile_ws_no_ws (fun c hc => h c (List.mem_reverse.mp hc)),
    List.reverse_reverse]

lemma digitsUnd_of_digits :
    ∀ l : List Char, l ≠ [] → (∀ c ∈ l, c.isDigit = true) → digitsUnd l = true := by
  intro l
  induction l with
  | nil => intro hne _; exact absurd rfl hne
  | cons c rest ih =>
    intro _ h
    cases rest with
    | nil => simpa [digitsUnd] using h c (by simp)
    | cons d rest2 =>
      have hc := h c (by simp)
      have hd := h d (by simp)
      have hdne : ¬(d = '_') := by
        intro he; rw [he] at hd; exact absurd hd (by decide)
      have hrest := ih (by simp) (fun x hx => h x (by simp [hx]))
      simp [digitsUnd, hc, hdne, hrest]

lemma filter_und_of_digits {l : List Char} (h : ∀ c ∈ l, c.isDigit = true) :
    l.filter (fun x => x ≠ '_') = l := by
  apply List.filter_eq_self.mpr
  intro a ha
  have hd := h a ha
  simp only [ne_eq, decide_eq_true_eq]
  intro he
  rw [he] at hd
  exact absurd hd (by decide)

example : pyIntParse "7" = some 7 := by decide
example : pyIntParse "-12" = some (-12) := by decide
example : pyIntParse " 5" = some 5 := by decide
example : pyIntParse "1_0" = some 10 := by decide
example : pyIntParse "abc" = none := by decide
example : pyIntParse "" = none := by decide
example : pyIntParse "+_5" = none := by decide
example : pyIntParse "5_" = none := by decide
example : pyIntParse "5__5" = none := by decide
example : signedDigitsVal " 5" = none := by decide
example : signedDigitsVal "-12" = some (-12) := by decide

/-- C1: for every valid integer input `n` (any string the parse step accepts,
including negative, zero, and large values — Python integers are unbounded,
embedded as `Int`), whenever the handler returns a success payload, the
`msg` field equals `n * n` exactly. -/
theorem c1_success_msg_is_square (s : String) (rDelay rErr : Int) (n m t : Int)
    (hn : pyIntOfArg (some s) = Except.ok n)
    (hr : (get (some s) rDelay rErr).response =
      some { status := 200, body := Body.success m t }) :
    m = n * n := by
  unfold get at hr
  rw [hn] at hr
  by_cases he : rErr = 0
  · simp [he, jsonify] at hr
  · simp [he, jsonify] at hr
    omega

/-- Witness for C1 at the concrete input `num = "-7"`, draws 100 and 3:
the success payload carries `msg = 49 = (-7) * (-7)`. -/
theorem c1_witness :
    pyIntOfArg (some "-7") = Except.ok (-7) ∧
    (get (some "-7") 100 3).response =
      some { status := 200, body := Body.success 49 250 } ∧
    (49 : Int) = (-7) * (-7) :=
  ⟨by rfl, by decide,
    c1_success_msg_is_square "-7" 100 3 (-7) 49 250 (by rfl) (by decide)⟩

/-- C2: in every success response, the `ttl(ms)` field equals
`TTL + delay = 100 + (50 + rDelay)` where `rDelay` is the first draw, from
the closed interval `[50, 200]`; consequently it lies between 150 and 350. -/
theorem c2_ttl_is_ttl_plus_delay (s : String) (rDelay rErr : Int) (n m t : Int)
    (hlo : 50 ≤ rDelay) (hhi : rDelay ≤ 200)
    (hn : pyIntOfArg (some s) = Except.ok n)
    (hr : (get (some s) rDelay rErr).response =
      some { status := 200, body := Body.success m t }) :
    t = TTL + (50 + rDelay) ∧ 150 ≤ t ∧ t ≤ 350 := by
  unfold get at hr
  rw [hn] at hr
  by_cases he : rErr = 0
  · simp [he, jsonify] at hr
  · simp [he, jsonify] at hr
    have h100 : TTL = (100 : Int) := rfl
    omega

/-- Witness for C2 at `num = "5"`, draws 60 and 1: `ttl = 210 = 100 + 50 + 60`. -/
theorem c2_witness :
    (50 : Int) ≤ 60 ∧ (60 : Int) ≤ 200 ∧
    pyIntOfArg (some "5") = Except.ok 5 ∧
    (get (some "5") 60 1).response =
      some { status := 200, body := Body.success 25 210 } ∧
    ((210 : Int) = TTL + (50 + 60) ∧ (150 : Int) ≤ 210 ∧ (210 : Int) ≤ 350) :=
  ⟨by decide, by decide, by rfl, by decide,
    c2_ttl_is_ttl_plus_delay "5" 60 1 5 25 210 (by decide) (by decide)
      (by rfl) (by decide)⟩

/-- C3: given a valid integer input, the handler returns exactly the body
`{"error": "something went wrong"}` if and only if the second draw equals 0;
otherwise it returns the success payload. -/
theorem c3_error_iff_draw_zero (numArg : Option String) (rDelay rErr n : Int)
    (hn : pyIntOfArg numArg = Except.ok n) :
    ((get numArg rDelay rErr).response =
        some { status := 200, body := Body.error "something went wrong" } ↔
      rErr = 0) ∧
    (rErr ≠ 0 → (get numArg rDelay rErr).response =
        some { status := 200, body := Body.success (n * n) (TTL + (50 + rDelay)) }) := by
  unfold get
  rw [hn]
  by_cases he : rErr = 0 <;> simp [he, jsonify]

/-- Witness for C3 at `num = "4"`, delay draw 75: with error draw 0 the error
body is returned; with error draw 7 the success body is returned. -/
theorem c3_witness :
    pyIntOfArg (some "4") = Except.ok 4 ∧
    ((get (some "4") 75 0).response =
        some { status := 200, body := Body.error "something went wrong" } ↔
      (0 : Int) = 0) ∧
    ((7 : Int) ≠ 0 → (get (some "4") 75 7).response =
        some { status := 200, body := Body.success (4 * 4) (TTL + (50 + 75)) }) :=
  ⟨by rfl, (c3_error_iff_draw_zero (some "4") 75 0 4 (by rfl)).1,
    (c3_error_iff_draw_zero (some "4") 75 7 4 (by rfl)).2⟩

/-- C4: when the parse step fails (missing `num`, non-numeric, malformed),
the exception is caught (the run still yields a `HandlerRun`, the process
does not crash), its message is printed, and the handler produces no
response body at all. -/
theorem c4_parse_failure_logged_no_body (numArg : Option String)
    (rDelay rErr : Int) (e : String)
    (he : pyIntOfArg numArg = Except.error e) :
    (get numArg rDelay rErr).response = none ∧
    (get numArg rDelay rErr).log = [e] := by
  unfold get
  rw [he]
  exact ⟨rfl, rfl⟩

/-- Witness for C4 at the malformed input `num = "abc"`. -/
theorem c4_witness :
    pyIntOfArg (some "abc") =
      Except.error "ValueError: invalid literal for int() with base 10: abc" ∧
    (get (some "abc") 100 3).response = none ∧
    (get (some "abc") 100 3).log =
      ["ValueError: invalid literal for int() with base 10: abc"] :=
  ⟨by rfl,
    c4_parse_failure_logged_no_body (some "abc") 100 3 _ (by rfl)⟩

/-- C5: for every syntactically valid `num`, the handler's response — success
or simulated error — is a JSON body delivered with HTTP status 200; the error
case is never signalled through the transport status. -/
theorem c5_always_http_200 (numArg : Option String) (rDelay rErr n : Int)
    (hn : pyIntOfArg numArg = Except.ok n) :
    ∃ b : Body,
      (get numArg rDelay rErr).response = some { status := 200, body := b } := by
  unfold get
  rw [hn]
  exact ⟨_, rfl⟩

/-- Witness for C5 at `num = "3"`, draws 50 and 0 (the error branch): even the
error body is delivered with status 200. -/
theorem c5_witness :
    pyIntOfArg (some "3") = Except.ok 3 ∧
    ∃ b : Body,
      (get (some "3") 50 0).response = some { status := 200, body := b } :=
  ⟨by rfl, c5_always_http_200 (some "3") 50 0 3 (by rfl)⟩

/-- C6: for a valid integer input the handler's event trace is exactly
parse, delay draw, sleep of `50 + rDelay` ms, error draw — in that order;
in particular the sleep occurs strictly before the error draw, so runs that
end in the error payload also wait out the full delay. -/
theorem c6_sleep_before_error_draw (numArg : Option String) (rDelay rErr n : Int)
    (hn : pyIntOfArg numArg = Except.ok n) :
    (get numArg rDelay rErr).events =
      [Event.parsed n, Event.drewDelay rDelay, Event.slept (50 + rDelay),
        Event.drewError rErr] ∧
    ∃ i j : Nat, i < j ∧
      (get numArg rDelay rErr).events[i]? = some (Event.slept (50 + rDelay)) ∧
      (get numArg rDelay rErr).events[j]? = some (Event.drewError rErr) := by
  unfold get
  rw [hn]
  exact ⟨rfl, 2, 3, by omega, rfl, rfl⟩

/-- Witness for C6 at `num = "9"`, draws 120 and 0 (an error-payload run). -/
theorem c6_witness :
    pyIntOfArg (some "9") = Except.ok 9 ∧
    ((get (some "9") 120 0).events =
      [Event.parsed 9, Event.drewDelay 120, Event.slept (50 + 120),
        Event.drewError 0] ∧
    ∃ i j : Nat, i < j ∧
      (get (some "9") 120 0).events[i]? = some (Event.slept (50 + 120)) ∧
      (get (some "9") 120 0).events[j]? = some (Event.drewError 0)) :=
  ⟨by rfl, c6_sleep_before_error_draw (some "9") 120 0 9 (by rfl)⟩

/-- C9: the handler's outcome — branch taken, body fields, ttl, log and event
trace — is a deterministic function of the `num` argument and the two random
draws: equal inputs give identical runs. -/
theorem c9_deterministic (a1 a2 : Option String) (rD1 rD2 rE1 rE2 : Int)
    (ha : a1 = a2) (hd : rD1 = rD2) (he : rE1 = rE2) :
    get a1 rD1 rE1 = get a2 rD2 rE2 := by
  rw [ha, hd, he]

/-- Witness for C9 at `num = "6"`, draws 80 and 2. -/
theorem c9_witness : get (some "6") 80 2 = get (some "6") 80 2 :=
  c9_deterministic (some "6") (some "6") 80 80 2 2 rfl rfl rfl

/-- C10: in every success response `ttl(ms)` lies in the closed interval
`[200, 350]` — in particular it is at least 200, strictly above the 150
floor, because `ttl = 100 + 50 + rDelay` with `rDelay` drawn from `[50, 200]`. -/
theorem c10_ttl_in_200_350 (s : String) (rDelay rErr : Int) (n m t : Int)
    (hlo : 50 ≤ rDelay) (hhi : rDelay ≤ 200)
    (hn : pyIntOfArg (some s) = Except.ok n)
    (hr : (get (some s) rDelay rErr).response =
      some { status := 200, body := Body.success m t }) :
    200 ≤ t ∧ t ≤ 350 := by
  unfold get at hr
  rw [hn] at hr
  by_cases he : rErr = 0
  · simp [he, jsonify] at hr
  · simp [he, jsonify] at hr
    have h100 : TTL = (100 : Int) := rfl
    omega

/-- Witness for C10 at `num = "2"`, draws 50 and 4: the minimum possible
`ttl = 200`. -/
theorem c10_witness :
    (50 : Int) ≤ 50 ∧ (50 : Int) ≤ 200 ∧
    pyIntOfArg (some "2") = Except.ok 2 ∧
    (get (some "2") 50 4).response =
      some { status := 200, body := Body.success 4 200 } ∧
    ((200 : Int) ≤ 200 ∧ (200 : Int) ≤ 350) :=
  ⟨by decide, by decide, by rfl, by decide,
    c10_ttl_in_200_350 "2" 50 4 2 4 200 (by decide) (by decide) (by rfl)
      (by decide)⟩

/-- C7 (counterexample): the claim says the parse step succeeds exactly on
strings of the grammar "optional sign followed by decimal digits".  The
string " 5" (a leading space) is outside that grammar — `signedDigitsVal`,
modelled from the spec's words, rejects it — yet the code's parse step
accepts it with value 5, because Python's `int()` strips whitespace. -/
theorem c7_counterexample :
    signedDigitsVal " 5" = none ∧ pyIntParse " 5" = some 5 ∧
    pyIntOfArg (some " 5") = Except.ok 5 :=
  ⟨by decide, by decide, by rfl⟩

/-- C7 (amended): every string of the grammar "optional sign followed by
decimal digits" parses to the corresponding integer; the converse fails,
since the parse step also accepts strings outside the grammar (surrounding
whitespace, underscores between digits). -/
theorem c7_signed_digits_parse (s : String) (v : Int)
    (h : signedDigitsVal s = some v) :
    pyIntOfArg (some s) = Except.ok v := by
  have hp : pyIntParse s = some v := by
    unfold signedDigitsVal at h
    unfold pyIntParse pyIntCore
    cases hd : s.data with
    | nil => rw [hd] at h; simp at h
    | cons c rest =>
      rw [hd] at h
      replace h : (if c = '+' then
          (if !rest.isEmpty && rest.all Char.isDigit then some (digitsVal rest)
           else none)
        else if c = '-' then
          (if !rest.isEmpty && rest.all Char.isDigit then some (-(digitsVal rest))
           else none)
        else
          (if (c :: rest).all Char.isDigit then some (digitsVal (c :: rest))
           else none)) = some v := h
      by_cases hplus : c = '+'
      · rw [if_pos hplus] at h
        by_cases hcond : (!rest.isEmpty && rest.all Char.isDigit) = true
        · rw [if_pos hcond] at h
          simp only [Bool.and_eq_true] at hcond
          have hne2 : rest ≠ [] := by
            have := hcond.1
            intro he
            rw [he] at this
            exact absurd this (by decide)
          have hdig2 : ∀ x ∈ rest, x.isDigit = true := by
            have := hcond.2
            simpa [List.all_eq_true] using this
          have hnows : ∀ x ∈ c :: rest, isPyWs x = false := by
            intro x hx
            rcases List.mem_cons.mp hx with h1 | h1
            · rw [h1, hplus]; decide
            · exact ws_false_of_digit (hdig2 x h1)
          rw [stripWs_no_ws hnows]
          show (if c = '+' then _ else _) = some v
          rw [if_pos hplus, if_pos (digitsUnd_of_digits rest hne2 hdig2),
            filter_und_of_digits hdig2]
          exact h
        · rw [if_neg hcond] at h; exact absurd h (by simp)
      · by_cases hminus : c = '-'
        · rw [if_neg hplus, if_pos hminus] at h
          by_cases hcond : (!rest.isEmpty && rest.all Char.isDigit) = true
          · rw [if_pos hcond] at h
            simp only [Bool.and_eq_true] at hcond
            have hne2 : rest ≠ [] := by
              have := hcond.1
              intro he
              rw [he] at this
              exact absurd this (by decide)
            have hdig2 : ∀ x ∈ rest, x.isDigit = true := by
              have := hcond.2
              simpa [List.all_eq_true] using this
            have hnows : ∀ x ∈ c :: rest, isPyWs x = false := by
              intro x hx
              rcases List.mem_cons.mp hx with h1 | h1
              · rw [h1, hminus]; decide
              · exact ws_false_of_digit (hdig2 x h1)
            rw [stripWs_no_ws hnows]
            show (if c = '+' then _ else _) = some v
            rw [if_neg hplus, if_pos hminus,
              if_pos (digitsUnd_of_digits rest hne2 hdig2),
              filter_und_of_digits hdig2]
            exact h
          · rw [if_neg hcond] at h; exact absurd h (by simp)
        · rw [if_neg hplus, if_neg hminus] at h
          by_cases hcond : (c :: rest).all Char.isDigit = true
          · rw [if_pos hcond] at h
            have hdig2 : ∀ x ∈ c :: rest, x.isDigit = true := by
              simpa [List.all_eq_true] using hcond
            have hnows : ∀ x ∈ c :: rest, isPyWs x = false :=
              fun x hx => ws_false_of_digit (hdig2 x hx)
            rw [stripWs_no_ws hnows]
            show (if c = '+' then _ else _) = some v
            rw [if_neg hplus, if_neg hminus,
              if_pos (digitsUnd_of_digits (c :: rest) (by simp) hdig2),
              filter_und_of_digits hdig2]
            exact h
          · rw [if_neg hcond] at h; exact absurd h (by simp)
  simp only [pyIntOfArg]
  rw [hp]

/-- Witness for the amended C7 at the grammar string "-12". -/
theorem c7_witness :
    signedDigitsVal "-12" = some (-12) ∧
    pyIntOfArg (some "-12") = Except.ok (-12) :=
  ⟨by decide, c7_signed_digits_parse "-12" (-12) (by decide)⟩

end HttpServer
